import Mathlib

/-!
# A verification model of the Sub-Frame-Selector analysis core

This file embeds the analysis pipeline of the repository (the modules
`statistics.py`, `metrics.py`, `star_detector.py`, `fits_reader.py` and
`analyzer.py` under `src/src/analysis/`) as Lean definitions and proves
properties of the embedded code.

Modelling conventions:
* machine floats are modelled by `ℚ` (exact arithmetic) except where a square
  root is taken, in which case `ℝ` with `Real.sqrt` is used;
* a float that may be NaN or Inf is modelled by `Option ℚ`, with `none`
  standing for a non-finite value;
* Python exceptions are modelled by `Except String`;
* results of external I/O and of the external numerical solver
  (`astropy.io.fits`, `scipy.optimize.curve_fit`, the pixel content of
  images) are inputs of the embedding, carried as fields of the structures
  that stand for files and detected candidates; everything the repository
  itself computes from those inputs is embedded directly.
-/

namespace SFS

/-! ## Robust statistics (`src/src/analysis/statistics.py`) -/

/-- The sorted copy of a list of rationals, as `np.median` sorts its input.
(`List.insertionSort` is a comparison sort; on rationals every sorted
permutation is the same list, so the choice of algorithm is immaterial.) -/
def sortQ (l : List ℚ) : List ℚ := List.insertionSort (· ≤ ·) l

/-- `np.median` of a 1-D array: the middle element of the sorted copy when the
length is odd, the mean of the two middle elements when it is even.  (The
repository only calls it on nonempty arrays; on `[]` this total model returns
the default `0` where NumPy would return NaN with a warning.) -/
def medianQ (l : List ℚ) : ℚ :=
  if l.length % 2 = 1 then (sortQ l).getD (l.length / 2) 0
  else ((sortQ l).getD (l.length / 2 - 1) 0 + (sortQ l).getD (l.length / 2) 0) / 2

/-- `StatisticsCalculator.MAD_SCALE_FACTOR` (statistics.py line 12). -/
def MAD_SCALE_FACTOR : ℚ := 1.4826

/-- The statistics record returned by `StatisticsCalculator.calculate_bands`. -/
structure BandStats where
  median : ℚ
  sigma : ℚ
  mad : ℚ
  band_1sigma : ℚ × ℚ
  band_2sigma : ℚ × ℚ
  min : ℚ
  max : ℚ
deriving DecidableEq, Repr

/-- `StatisticsCalculator._empty_result` (statistics.py lines 149-159). -/
def empty_result : BandStats :=
  { median := 0, sigma := 0, mad := 0, band_1sigma := (0, 0), band_2sigma := (0, 0),
    min := 0, max := 0 }

/-- `StatisticsCalculator.median_absolute_deviation` (statistics.py lines
67-84): `MAD = median (|x_i - median x|)`, and `0.0` on an empty array. -/
def median_absolute_deviation (values : List ℚ) : ℚ :=
  if values.length = 0 then 0
  else medianQ (values.map (fun x => |x - medianQ values|))

/-- `StatisticsCalculator.calculate_bands` (statistics.py lines 14-65).
A value of the input array is `Option ℚ`: `none` models a non-finite float
(NaN or Inf) that the `np.isfinite` mask removes, `some q` a finite value. -/
def calculate_bands (values : List (Option ℚ)) : BandStats :=
  if values.length = 0 then empty_result
  else
    let finite := values.filterMap id
    if finite.length = 0 then empty_result
    else
      let median := medianQ finite
      let mad := median_absolute_deviation finite
      let sigma0 := mad * MAD_SCALE_FACTOR
      let sigma := if sigma0 = 0 then 0.001 else sigma0
      { median := median, sigma := sigma, mad := mad,
        band_1sigma := (median - sigma, median + sigma),
        band_2sigma := (median - 2 * sigma, median + 2 * sigma),
        min := (finite.min?).getD 0, max := (finite.max?).getD 0 }

/-- `StatisticsCalculator.is_outlier` (statistics.py lines 86-107):
`|value - median| > sigma_threshold * sigma`, and `False` when `sigma = 0`. -/
def is_outlier (value : ℚ) (stats : BandStats) (sigma_threshold : ℚ) : Bool :=
  if stats.sigma = 0 then false
  else decide (sigma_threshold * stats.sigma < |value - stats.median|)

/-- `StatisticsCalculator.get_outlier_indices` (statistics.py lines 109-131):
the indices of the finite values that `is_outlier` flags against the bands of
the whole array. -/
def get_outlier_indices (values : List (Option ℚ)) (sigma_threshold : ℚ) : List ℕ :=
  let stats := calculate_bands values
  ((values.enum.filter (fun p =>
      match p.2 with
      | some v => is_outlier v stats sigma_threshold
      | none => false)).map Prod.fst)

/-! ### Facts about `sortQ` and `medianQ` -/

theorem sortQ_perm (l : List ℚ) : (sortQ l).Perm l := List.perm_insertionSort _ _

theorem sortQ_sorted (l : List ℚ) : (sortQ l).Sorted (· ≤ ·) :=
  List.sorted_insertionSort _ _

theorem sortQ_congr {l₁ l₂ : List ℚ} (h : l₁.Perm l₂) : sortQ l₁ = sortQ l₂ :=
  List.eq_of_perm_of_sorted ((sortQ_perm l₁).trans (h.trans (sortQ_perm l₂).symm))
    (sortQ_sorted l₁) (sortQ_sorted l₂)

theorem medianQ_congr {l₁ l₂ : List ℚ} (h : l₁.Perm l₂) : medianQ l₁ = medianQ l₂ := by
  unfold medianQ
  rw [sortQ_congr h, h.length_eq]

theorem getD_const {l : List ℚ} {c : ℚ} (hall : ∀ x ∈ l, x = c) {i : ℕ}
    (hi : i < l.length) : l.getD i 0 = c := by
  rw [List.getD_eq_getElem _ _ hi]
  exact hall _ (l.getElem_mem hi)

theorem medianQ_const {l : List ℚ} {c : ℚ} (hne : l ≠ []) (hall : ∀ x ∈ l, x = c) :
    medianQ l = c := by
  have hs : ∀ x ∈ sortQ l, x = c := fun x hx => hall x ((sortQ_perm l).subset hx)
  have hlen : (sortQ l).length = l.length := (sortQ_perm l).length_eq
  have hpos : 0 < l.length := List.length_pos.mpr hne
  unfold medianQ
  by_cases hpar : l.length % 2 = 1
  · rw [if_pos hpar, getD_const hs (by omega)]
  · rw [if_neg hpar, getD_const hs (by omega), getD_const hs (by omega)]
    ring

theorem mad_congr {l₁ l₂ : List ℚ} (h : l₁.Perm l₂) :
    median_absolute_deviation l₁ = median_absolute_deviation l₂ := by
  unfold median_absolute_deviation
  rw [h.length_eq, medianQ_congr h]
  by_cases h2 : l₂.length = 0
  · simp [h2]
  · rw [if_neg h2, if_neg h2, medianQ_congr (h.map _)]

instance : Std.Antisymm ((· ≤ ·) : ℚ → ℚ → Prop) :=
  ⟨fun h h2 => le_antisymm h h2⟩

theorem min?_congr {l₁ l₂ : List ℚ} (h : l₁.Perm l₂) : l₁.min? = l₂.min? := by
  cases hm : l₁.min? with
  | none =>
    have h1 : l₁ = [] := List.min?_eq_none_iff.mp hm
    have h2 : l₂ = [] := ((h1 ▸ h).nil_eq).symm
    rw [h2, List.min?_eq_none_iff.mpr rfl]
  | some a =>
    have hiff1 : l₁.min? = some a ↔ a ∈ l₁ ∧ ∀ b, b ∈ l₁ → a ≤ b :=
      List.min?_eq_some_iff (fun x => le_refl x)
        (fun x y => min_choice x y) (fun _ _ _ => le_min_iff)
    have hiff2 : l₂.min? = some a ↔ a ∈ l₂ ∧ ∀ b, b ∈ l₂ → a ≤ b :=
      List.min?_eq_some_iff (fun x => le_refl x)
        (fun x y => min_choice x y) (fun _ _ _ => le_min_iff)
    rcases hiff1.mp hm with ⟨hmem, hle⟩
    exact (hiff2.mpr ⟨h.subset hmem, fun b hb => hle b (h.symm.subset hb)⟩).symm

theorem max?_congr {l₁ l₂ : List ℚ} (h : l₁.Perm l₂) : l₁.max? = l₂.max? := by
  cases hm : l₁.max? with
  | none =>
    have h1 : l₁ = [] := List.max?_eq_none_iff.mp hm
    have h2 : l₂ = [] := ((h1 ▸ h).nil_eq).symm
    rw [h2, List.max?_eq_none_iff.mpr rfl]
  | some a =>
    have hiff1 : l₁.max? = some a ↔ a ∈ l₁ ∧ ∀ b ∈ l₁, b ≤ a :=
      List.max?_eq_some_iff (fun x => le_refl x)
        (fun x y => max_choice x y) (fun _ _ _ => max_le_iff)
    have hiff2 : l₂.max? = some a ↔ a ∈ l₂ ∧ ∀ b ∈ l₂, b ≤ a :=
      List.max?_eq_some_iff (fun x => le_refl x)
        (fun x y => max_choice x y) (fun _ _ _ => max_le_iff)
    rcases hiff1.mp hm with ⟨hmem, hle⟩
    exact (hiff2.mpr ⟨h.subset hmem, fun b hb => hle b (h.symm.subset hb)⟩).symm

/-! ### Claim C7 -/

/-- **C7.** For an empty input array, or one whose values are all NaN/Inf
(non-finite, modelled by `none`), `calculate_bands` returns the neutral
all-zero statistics record (`median = sigma = mad = 0`, both bands `(0,0)`,
`min = max = 0`); the embedded function is total, so no exception is raised. -/
theorem C7_empty_or_allnan_neutral (values : List (Option ℚ))
    (h : values = [] ∨ values.filterMap id = []) :
    calculate_bands values = empty_result := by
  rcases h with h | h
  · simp [calculate_bands, h]
  · by_cases hv : values.length = 0
    · simp [calculate_bands, hv]
    · simp [calculate_bands, hv, h]

/-- Witness for C7 at the concrete all-NaN input `[none]`. -/
theorem C7_empty_or_allnan_neutral_witness :
    (([none] : List (Option ℚ)) = [] ∨ ([none] : List (Option ℚ)).filterMap id = []) ∧
      calculate_bands [none] = empty_result :=
  ⟨Or.inr (by decide), C7_empty_or_allnan_neutral [none] (Or.inr (by decide))⟩

/-! ### Claim C6 -/

/-- **C6.** For every non-empty batch of finite values that are all identical,
`calculate_bands` yields `sigma` equal to the floor `0.001` (not `0`), and
under those statistics no value of the batch is reported as an outlier at
`sigma_threshold = 2.0`, neither by `is_outlier` nor by
`get_outlier_indices`. -/
theorem C6_identical_values_sigma_floor (values : List (Option ℚ)) (c : ℚ)
    (hne : values ≠ []) (hall : ∀ v ∈ values, v = some c) :
    (calculate_bands values).sigma = 0.001
    ∧ is_outlier c (calculate_bands values) 2 = false
    ∧ get_outlier_indices values 2 = [] := by
  have hv : ¬ values.length = 0 := by
    simpa [List.length_eq_zero] using hne
  have hfin_all : ∀ x ∈ values.filterMap id, x = c := by
    intro x hx
    rcases List.mem_filterMap.mp hx with ⟨a, ha, hid⟩
    rw [hall a ha] at hid
    exact (Option.some_injective _ hid.symm)
  have hmem : c ∈ values.filterMap id := by
    rcases List.exists_mem_of_ne_nil values hne with ⟨v, hv'⟩
    exact List.mem_filterMap.mpr ⟨v, hv', by rw [hall v hv']; rfl⟩
  have hfin_ne : values.filterMap id ≠ [] := List.ne_nil_of_mem hmem
  have hf : ¬ (values.filterMap id).length = 0 := by
    simpa [List.length_eq_zero] using hfin_ne
  have hmedian : medianQ (values.filterMap id) = c := medianQ_const hfin_ne hfin_all
  have hmad : median_absolute_deviation (values.filterMap id) = 0 := by
    unfold median_absolute_deviation
    rw [if_neg hf, hmedian]
    refine medianQ_const ?_ ?_
    · simpa [List.map_eq_nil_iff] using hfin_ne
    · intro y hy
      rcases List.mem_map.mp hy with ⟨x, hx, rfl⟩
      rw [hfin_all x hx]
      simp
  have hkey : calculate_bands values =
      { median := c, sigma := 0.001, mad := 0,
        band_1sigma := (c - 0.001, c + 0.001),
        band_2sigma := (c - 2 * 0.001, c + 2 * 0.001),
        min := ((values.filterMap id).min?).getD 0,
        max := ((values.filterMap id).max?).getD 0 } := by
    simp only [calculate_bands, if_neg hv, if_neg hf, hmedian, hmad]
    norm_num
  have houtl : is_outlier c (calculate_bands values) 2 = false := by
    rw [hkey]
    unfold is_outlier
    norm_num
  refine ⟨by rw [hkey], houtl, ?_⟩
  unfold get_outlier_indices
  have hfilter : values.enum.filter (fun p =>
      match p.2 with
      | some v => is_outlier v (calculate_bands values) 2
      | none => false) = [] := by
    rw [List.filter_eq_nil_iff]
    intro p hp
    have hmem2 : p.2 ∈ values := by
      have := List.mem_enum_iff_getElem?.mp hp
      exact List.getElem?_mem this
    rw [hall p.2 hmem2]
    simpa using houtl
  simp only [hfilter, List.map_nil]

/-- Witness for C6 at the concrete all-identical batch `[some 3, some 3]`. -/
theorem C6_identical_values_sigma_floor_witness :
    (([some 3, some 3] : List (Option ℚ)) ≠ [] ∧
      ∀ v ∈ ([some 3, some 3] : List (Option ℚ)), v = some 3) ∧
    ((calculate_bands [some 3, some 3]).sigma = 0.001
      ∧ is_outlier 3 (calculate_bands [some 3, some 3]) 2 = false
      ∧ get_outlier_indices [some 3, some 3] 2 = []) :=
  ⟨⟨by decide, by decide⟩,
    C6_identical_values_sigma_floor [some 3, some 3] 3 (by decide) (by decide)⟩

/-! ### Claim C9 -/

/-- **C9.** The median, MAD and sigma computed by `calculate_bands` are
invariant under any permutation of the input values. -/
theorem C9_bands_permutation_invariant (v₁ v₂ : List (Option ℚ))
    (h : v₁.Perm v₂) :
    (calculate_bands v₁).median = (calculate_bands v₂).median
    ∧ (calculate_bands v₁).mad = (calculate_bands v₂).mad
    ∧ (calculate_bands v₁).sigma = (calculate_bands v₂).sigma := by
  have hfin : (v₁.filterMap id).Perm (v₂.filterMap id) := h.filterMap id
  have hcb : calculate_bands v₁ = calculate_bands v₂ := by
    simp only [calculate_bands]
    rw [h.length_eq, hfin.length_eq, medianQ_congr hfin, mad_congr hfin,
      min?_congr hfin, max?_congr hfin]
  rw [hcb]
  exact ⟨rfl, rfl, rfl⟩

/-- Witness for C9 at the concrete permutation
`[some 1, some 2, none] ~ [none, some 2, some 1]`. -/
theorem C9_bands_permutation_invariant_witness :
    (([some 1, some 2, none] : List (Option ℚ)).Perm [none, some 2, some 1]) ∧
    ((calculate_bands [some 1, some 2, none]).median
        = (calculate_bands [none, some 2, some 1]).median
      ∧ (calculate_bands [some 1, some 2, none]).mad
        = (calculate_bands [none, some 2, some 1]).mad
      ∧ (calculate_bands [some 1, some 2, none]).sigma
        = (calculate_bands [none, some 2, some 1]).sigma) :=
  ⟨by decide, C9_bands_permutation_invariant _ _ (by decide)⟩

/-! ## Frame metrics (`src/src/analysis/metrics.py`) -/

/-- One PSF fit record as consumed by `MetricsCalculator`: the fields of the
dicts produced by `StarDetector.fit_psf`.  `fit_success` is `Option Bool`
because the Python code reads the key through `star.get('fit_success', True)`,
so a dict may lack it; `none` models a missing key. -/
structure PSFEntry where
  x : ℚ
  y : ℚ
  fwhm_x : ℚ
  fwhm_y : ℚ
  amplitude : ℚ
  fit_success : Option Bool
deriving DecidableEq, Repr

/-- `star.get('fit_success', True)` (metrics.py lines 66, 94, 138, 167). -/
def fitFlag (e : PSFEntry) : Bool := e.fit_success.getD true

/-- The entries whose geometric-mean FWHM `calculate_fwhm` aggregates
(metrics.py lines 64-69): those with the success flag (defaulted to true). -/
def fwhmEntries (l : List PSFEntry) : List PSFEntry := l.filter fitFlag

/-- The entries whose eccentricity `calculate_eccentricity` aggregates
(metrics.py lines 92-108): success flag (defaulted to true) and major axis
`a = max fwhm_x fwhm_y > 0` (the division guard at line 103). -/
def eccEntries (l : List PSFEntry) : List PSFEntry :=
  l.filter (fun e => fitFlag e && decide (0 < max e.fwhm_x e.fwhm_y))

/-- The entries whose amplitude enters the `calculate_snr` numerator
(metrics.py lines 136-139): success flag (defaulted to true) and amplitude
greater than zero. -/
def snrEntries (l : List PSFEntry) : List PSFEntry :=
  l.filter (fun e => fitFlag e && decide (0 < e.amplitude))

/-- Sorted copy of a list of reals (classical order, hence noncomputable);
real values occur where the Python code takes square roots. -/
noncomputable def sortR (l : List ℝ) : List ℝ := List.insertionSort (· ≤ ·) l

/-- `np.median` over reals, as `medianQ` over rationals. -/
noncomputable def medianR (l : List ℝ) : ℝ :=
  if l.length % 2 = 1 then (sortR l).getD (l.length / 2) 0
  else ((sortR l).getD (l.length / 2 - 1) 0 + (sortR l).getD (l.length / 2) 0) / 2

/-- `MetricsCalculator.calculate_fwhm` (metrics.py lines 48-74): the median
over the success entries of `sqrt (fwhm_x * fwhm_y)`, `0.0` when the list or
the collected values are empty. -/
noncomputable def calculate_fwhm (l : List PSFEntry) : ℝ :=
  if l = [] then 0
  else
    let vals := (fwhmEntries l).map (fun e => Real.sqrt ((e.fwhm_x * e.fwhm_y : ℚ) : ℝ))
    if vals = [] then 0 else medianR vals

/-- The clamped squared axis ratio of one star (metrics.py lines 98-106),
exact in `ℚ`: with `a = max`, `b = min`, `ratio_sq = min ((b/a)^2) 1`. -/
def ratio_sq (e : PSFEntry) : ℚ :=
  min ((min e.fwhm_x e.fwhm_y / max e.fwhm_x e.fwhm_y) ^ 2) 1

/-- The eccentricity of one star, `sqrt (1 - ratio_sq)` (metrics.py line 107). -/
noncomputable def eccOf (e : PSFEntry) : ℝ := Real.sqrt (1 - (ratio_sq e : ℝ))

/-- `MetricsCalculator.calculate_eccentricity` (metrics.py lines 76-113). -/
noncomputable def calculate_eccentricity (l : List PSFEntry) : ℝ :=
  if l = [] then 0
  else
    let vals := (eccEntries l).map eccOf
    if vals = [] then 0 else medianR vals

/-- `MetricsCalculator.calculate_star_count` (metrics.py lines 154-168):
`sum(1 for star in psf_results if star.get('fit_success', True))`. -/
def calculate_star_count (l : List PSFEntry) : ℕ :=
  if l = [] then 0 else (l.filter fitFlag).length

/-- The eccentricity metric as claim C5 words it: the median over the
`fit_success = true` entries (with no further screening) of
`sqrt (1 - (min/max)^2)` with the squared ratio clamped to at most 1;
`0.0` if there are none. -/
noncomputable def eccentricitySpecC5 (l : List PSFEntry) : ℝ :=
  let vals := (l.filter fitFlag).map eccOf
  if vals = [] then 0 else medianR vals

/-! ### Claim C5 -/

/-- **C5.** Provided every success-flagged entry has a positive major axis
(`max fwhm_x fwhm_y > 0`, without which the claimed formula divides by zero),
`calculate_eccentricity` equals the median over `fit_success = true` entries
of `sqrt (1 - (min/max)^2)` with the squared ratio clamped to at most `1`
before the root; it is `0` when there are no successful fits; each per-star
eccentricity lies in `[0, 1)` whenever `fwhm_x, fwhm_y > 0`; and it equals
exactly `0` (no NaN exists in this real-valued model) when
`fwhm_x = fwhm_y > 0`. -/
theorem C5_eccentricity_median (l : List PSFEntry)
    (hpos : ∀ e ∈ l, fitFlag e = true → 0 < max e.fwhm_x e.fwhm_y) :
    calculate_eccentricity l = eccentricitySpecC5 l
    ∧ (∀ l' : List PSFEntry, l'.filter fitFlag = [] → calculate_eccentricity l' = 0)
    ∧ (∀ e : PSFEntry, 0 < e.fwhm_x → 0 < e.fwhm_y → 0 ≤ eccOf e ∧ eccOf e < 1)
    ∧ (∀ e : PSFEntry, e.fwhm_x = e.fwhm_y → 0 < e.fwhm_x → eccOf e = 0) := by
  refine ⟨?_, ?_, ?_, ?_⟩
  · have hfe : eccEntries l = l.filter fitFlag := by
      unfold eccEntries
      refine List.filter_congr ?_
      intro e he
      cases hf : fitFlag e with
      | false => simp
      | true => simp [hpos e he hf]
    unfold calculate_eccentricity eccentricitySpecC5
    rw [hfe]
    rcases eq_or_ne l [] with rfl | hne
    · simp
    · rw [if_neg hne]
  · intro l' hl'
    unfold calculate_eccentricity
    have hfe : eccEntries l' = [] := by
      unfold eccEntries
      rw [List.filter_eq_nil_iff]
      intro e he
      intro hcontra
      have h1 : fitFlag e = true := by
        simp only [Bool.and_eq_true] at hcontra
        exact hcontra.1
      have : e ∈ l'.filter fitFlag := List.mem_filter.mpr ⟨he, h1⟩
      rw [hl'] at this
      exact absurd this (List.not_mem_nil e)
    rcases eq_or_ne l' [] with rfl | hne
    · simp
    · rw [if_neg hne]
      simp [hfe]
  · intro e hx hy
    have hmaxpos : 0 < max e.fwhm_x e.fwhm_y := lt_max_of_lt_left hx
    have hminpos : 0 < min e.fwhm_x e.fwhm_y := lt_min hx hy
    have hratio : 0 < min e.fwhm_x e.fwhm_y / max e.fwhm_x e.fwhm_y :=
      div_pos hminpos hmaxpos
    have hrs_pos : 0 < ratio_sq e := by
      unfold ratio_sq
      exact lt_min (pow_pos hratio 2) one_pos
    have hrs_le : ratio_sq e ≤ 1 := min_le_right _ _
    constructor
    · exact Real.sqrt_nonneg _
    · unfold eccOf
      have h1 : (1 : ℝ) - (ratio_sq e : ℝ) < 1 := by
        have : (0 : ℝ) < (ratio_sq e : ℝ) := by exact_mod_cast hrs_pos
        linarith
      calc Real.sqrt (1 - (ratio_sq e : ℝ)) < Real.sqrt 1 := by
            apply Real.sqrt_lt_sqrt ?_ h1
            have : (ratio_sq e : ℝ) ≤ 1 := by exact_mod_cast hrs_le
            linarith
        _ = 1 := Real.sqrt_one
  · intro e hxy hx
    have hne : e.fwhm_x ≠ 0 := ne_of_gt hx
    have hrs : ratio_sq e = 1 := by
      unfold ratio_sq
      rw [hxy, min_self, max_self, div_self (by rw [← hxy]; exact hne)]
      norm_num
    unfold eccOf
    rw [hrs]
    norm_num

/-- Witness for C5 at the concrete one-star list with
`fwhm_x = 2`, `fwhm_y = 3`, `fit_success = some true`. -/
theorem C5_eccentricity_median_witness :
    (∀ e ∈ [PSFEntry.mk 0 0 2 3 1 (some true)], fitFlag e = true →
        0 < max e.fwhm_x e.fwhm_y) ∧
    (calculate_eccentricity [PSFEntry.mk 0 0 2 3 1 (some true)]
        = eccentricitySpecC5 [PSFEntry.mk 0 0 2 3 1 (some true)]
      ∧ (∀ l' : List PSFEntry, l'.filter fitFlag = [] → calculate_eccentricity l' = 0)
      ∧ (∀ e : PSFEntry, 0 < e.fwhm_x → 0 < e.fwhm_y → 0 ≤ eccOf e ∧ eccOf e < 1)
      ∧ (∀ e : PSFEntry, e.fwhm_x = e.fwhm_y → 0 < e.fwhm_x → eccOf e = 0)) :=
  ⟨by decide, C5_eccentricity_median [PSFEntry.mk 0 0 2 3 1 (some true)] (by decide)⟩

/-! ### Claim C10 -/

/-- **C10.** A PSF record that lacks the `fit_success` key (`none` here) is
treated as a successful fit by every metrics aggregation: the defaulted flag
is `true`; hence for a list of flag-less entries with positive FWHM values,
`calculate_star_count` counts the whole list, and the entry lists feeding
the FWHM and eccentricity medians (`calculate_fwhm` maps its values over
`fwhmEntries`, `calculate_eccentricity` over `eccEntries`) are the whole
list, so every entry contributes to those medians; the SNR numerator filter
likewise degenerates to the amplitude test alone. -/
theorem C10_missing_flag_counts_as_success (l : List PSFEntry)
    (hflag : ∀ e ∈ l, e.fit_success = none)
    (hpos : ∀ e ∈ l, 0 < e.fwhm_x ∧ 0 < e.fwhm_y) :
    calculate_star_count l = l.length
    ∧ fwhmEntries l = l
    ∧ eccEntries l = l
    ∧ snrEntries l = l.filter (fun e => decide (0 < e.amplitude))
    ∧ (∀ e : PSFEntry, e.fit_success = none → fitFlag e = true) := by
  have hf : ∀ e ∈ l, fitFlag e = true := by
    intro e he
    rw [fitFlag, hflag e he]
    rfl
  refine ⟨?_, ?_, ?_, ?_, ?_⟩
  · unfold calculate_star_count
    rcases eq_or_ne l [] with rfl | hne
    · rfl
    · rw [if_neg hne, List.filter_eq_self.mpr hf]
  · exact List.filter_eq_self.mpr hf
  · refine List.filter_eq_self.mpr ?_
    intro e he
    have hm : 0 < max e.fwhm_x e.fwhm_y := lt_max_of_lt_left (hpos e he).1
    simp [hf e he, hm]
  · unfold snrEntries
    refine List.filter_congr ?_
    intro e he
    simp [hf e he]
  · intro e he
    rw [fitFlag, he]
    rfl

/-- Witness for C10 at the concrete one-entry list whose dict lacks the
`fit_success` key. -/
theorem C10_missing_flag_counts_as_success_witness :
    ((∀ e ∈ [PSFEntry.mk 0 0 2 3 1 none], e.fit_success = none) ∧
      (∀ e ∈ [PSFEntry.mk 0 0 2 3 1 none], 0 < e.fwhm_x ∧ 0 < e.fwhm_y)) ∧
    (calculate_star_count [PSFEntry.mk 0 0 2 3 1 none]
        = ([PSFEntry.mk 0 0 2 3 1 none] : List PSFEntry).length
      ∧ fwhmEntries [PSFEntry.mk 0 0 2 3 1 none] = [PSFEntry.mk 0 0 2 3 1 none]
      ∧ eccEntries [PSFEntry.mk 0 0 2 3 1 none] = [PSFEntry.mk 0 0 2 3 1 none]
      ∧ snrEntries [PSFEntry.mk 0 0 2 3 1 none]
          = ([PSFEntry.mk 0 0 2 3 1 none] : List PSFEntry).filter
              (fun e => decide (0 < e.amplitude))
      ∧ (∀ e : PSFEntry, e.fit_success = none → fitFlag e = true)) :=
  ⟨⟨by decide, by decide⟩,
    C10_missing_flag_counts_as_success [PSFEntry.mk 0 0 2 3 1 none]
      (by decide) (by decide)⟩

/-! ## Star detection and PSF fitting (`src/src/analysis/star_detector.py`) -/

/-- A detection candidate: the dicts produced by `detect_stars`
(star_detector.py lines 87-94 and 117-130), fields `x`, `y`, `flux`, `peak`.
The extra field `fitRaw` carries the outcome of the external nonlinear
solver `scipy.optimize.curve_fit` on the box cutout around this candidate
(star_detector.py lines 224-233): `none` when the solver raises, and
`some (amplitude, sigma_x, sigma_y)` for the fitted parameters that
`_fit_gaussian_2d` goes on to screen.  The solver and the pixel data are
external to the repository, so their outcome is an input of the model. -/
structure Candidate where
  x : ℚ
  y : ℚ
  flux : ℚ
  peak : ℚ
  fitRaw : Option (ℚ × ℚ × ℚ)
deriving DecidableEq, Repr

/-- Descending flux order used by `sources.sort('flux', reverse=True)`
(line 82) and `stars.sort(key=lambda s: s['flux'], reverse=True)` (line 133). -/
def fluxGE (a b : Candidate) : Prop := b.flux ≤ a.flux

instance : DecidableRel fluxGE :=
  fun a b => inferInstanceAs (Decidable (b.flux ≤ a.flux))

instance : IsTotal Candidate fluxGE := ⟨fun a b => le_total b.flux a.flux⟩

instance : IsTrans Candidate fluxGE := ⟨fun _ _ _ h1 h2 => le_trans h2 h1⟩

/-- The ranking-and-capping step of `_detect_with_photutils`
(star_detector.py lines 81-84): sort all source rows by flux descending,
then truncate to `max_stars` when more remain.  The source rows themselves
come from `DAOStarFinder` (external); the model takes them as input. -/
def detect_with_photutils_select (max_stars : ℕ) (sources : List Candidate) :
    List Candidate :=
  let sorted := List.insertionSort fluxGE sources
  if max_stars < sorted.length then sorted.take max_stars else sorted

/-- The selection step of `_detect_simple` (star_detector.py lines 115-134):
the loop `for i in range(1, min(num_features + 1, max_stars + 1))` visits
only the first `max_stars` connected regions in label order (each yielding
one star dict; the nonempty-region guard at line 121 always holds for a
labelled region), then `stars.sort(key=flux, reverse=True)` and
`stars[:max_stars]`.  `regions` lists the candidate of each labelled region
in label order; the image processing that produces the labels is external. -/
def detect_simple_select (max_stars : ℕ) (regions : List Candidate) :
    List Candidate :=
  let stars := regions.take max_stars
  (List.insertionSort fluxGE stars).take max_stars

theorem photutils_select_eq (m : ℕ) (s : List Candidate) :
    detect_with_photutils_select m s = (List.insertionSort fluxGE s).take m := by
  unfold detect_with_photutils_select
  by_cases h : m < (List.insertionSort fluxGE s).length
  · rw [if_pos h]
  · rw [if_neg h, List.take_of_length_le (le_of_not_lt h)]

/-! ### Claim C3 -/

/-- Counterexample to C3 as stated: with `max_candidates = 1` and two
detected regions, the low-flux one first in label order, the fallback
simple-detection path returns the low-flux candidate — not the highest-flux
one — because it truncates to the first `max_candidates` regions *before*
ranking by flux.  The third conjunct states that the output differs from
the singleton holding the highest-flux candidate. -/
theorem C3_counterexample :
    detect_simple_select 1 [Candidate.mk 0 0 1 1 none, Candidate.mk 1 1 5 5 none]
        = [Candidate.mk 0 0 1 1 none]
    ∧ (Candidate.mk 0 0 1 1 none).flux < (Candidate.mk 1 1 5 5 none).flux
    ∧ decide (detect_simple_select 1
          [Candidate.mk 0 0 1 1 none, Candidate.mk 1 1 5 5 none]
        = [Candidate.mk 1 1 5 5 none]) = false := by
  refine ⟨by decide, by decide, by decide⟩

/-- **C3 (amended).** The photutils path ranks all candidates by total flux
descending and then truncates, so its output is flux-descending, has length
at most `max_stars`, and is the `max_stars` highest-flux candidates (every
dropped candidate has flux at most that of every kept one).  The fallback
simple path instead truncates to the *first* `max_stars` regions in label
order before sorting: its output is flux-descending, of length at most
`max_stars`, and a permutation of the first `max_stars` regions — not in
general the highest-flux ones (see the counterexample). -/
theorem C3_amended_rank_then_truncate (max_stars : ℕ)
    (sources regions : List Candidate) :
    (detect_with_photutils_select max_stars sources).Sorted fluxGE
    ∧ (detect_with_photutils_select max_stars sources).length ≤ max_stars
    ∧ (∃ rest, sources.Perm (detect_with_photutils_select max_stars sources ++ rest)
        ∧ ∀ a ∈ detect_with_photutils_select max_stars sources,
            ∀ b ∈ rest, b.flux ≤ a.flux)
    ∧ (detect_simple_select max_stars regions).Sorted fluxGE
    ∧ (detect_simple_select max_stars regions).length ≤ max_stars
    ∧ (detect_simple_select max_stars regions).Perm (regions.take max_stars) := by
  have hsorted : ∀ l : List Candidate, (List.insertionSort fluxGE l).Sorted fluxGE :=
    fun l => List.sorted_insertionSort fluxGE l
  refine ⟨?_, ?_, ?_, ?_, ?_, ?_⟩
  · rw [photutils_select_eq]
    exact (hsorted sources).sublist (List.take_sublist _ _)
  · rw [photutils_select_eq]
    simp
  · refine ⟨(List.insertionSort fluxGE sources).drop max_stars, ?_, ?_⟩
    · rw [photutils_select_eq, List.take_append_drop]
      exact (List.perm_insertionSort fluxGE sources).symm
    · rw [photutils_select_eq]
      intro a ha b hb
      have hpair := hsorted sources
      rw [← List.take_append_drop max_stars (List.insertionSort fluxGE sources)]
        at hpair
      exact (List.pairwise_append.mp hpair).2.2 a ha b hb
  · exact (hsorted (regions.take max_stars)).sublist (List.take_sublist _ _)
  · unfold detect_simple_select
    simp
  · unfold detect_simple_select
    have hlen : (List.insertionSort fluxGE (regions.take max_stars)).length
        ≤ max_stars := by
      rw [List.length_insertionSort]
      simp
    rw [List.take_of_length_le hlen]
    exact List.perm_insertionSort fluxGE (regions.take max_stars)

/-! ### PSF fitting (`StarDetector.fit_psf`) -/

/-- Python `round` (round-half-to-even) applied to a float, as in
`int(round(star['x']))` at star_detector.py line 153. -/
def pyRound (q : ℚ) : ℤ :=
  if q - ⌊q⌋ < 1/2 then ⌊q⌋
  else if 1/2 < q - ⌊q⌋ then ⌊q⌋ + 1
  else if Even ⌊q⌋ then ⌊q⌋ else ⌊q⌋ + 1

/-- The bounds screen of `fit_psf` (star_detector.py lines 152-157): with
`x = int(round(star.x)))`, `y = int(round(star.y))` and `image.shape = (H, W)`,
the candidate is skipped when
`x - half_box < 0 or x + half_box >= W or y - half_box < 0 or y + half_box >= H`. -/
def out_of_bounds (H W half_box : ℕ) (c : Candidate) : Bool :=
  decide (pyRound c.x - half_box < 0) || decide ((W : ℤ) ≤ pyRound c.x + half_box)
    || decide (pyRound c.y - half_box < 0) || decide ((H : ℤ) ≤ pyRound c.y + half_box)

/-- `StarDetector._fit_gaussian_2d` (star_detector.py lines 189-250), given
the raw solver output for the cutout: `fwhm = 2.355 * sigma` per axis and the
sanity screen `fwhm_x < 0.5 or fwhm_y < 0.5 or fwhm_x > size or fwhm_y > size`
(`size` the cutout side); `none` models both a solver exception and a
screened-out fit. -/
def fit_gaussian_2d (size : ℕ) (raw : Option (ℚ × ℚ × ℚ)) : Option (ℚ × ℚ × ℚ) :=
  match raw with
  | none => none
  | some (amp, sigma_x, sigma_y) =>
    let fwhm_x := 2.355 * sigma_x
    let fwhm_y := 2.355 * sigma_y
    if fwhm_x < 0.5 ∨ fwhm_y < 0.5 ∨ (size : ℚ) < fwhm_x ∨ (size : ℚ) < fwhm_y
    then none
    else some (fwhm_x, fwhm_y, amp)

/-- One output entry of `fit_psf` for an in-bounds candidate
(star_detector.py lines 164-185): the fitted parameters with
`fit_success = True` when `_fit_gaussian_2d` returns a result, else the
estimate fallback — `fwhm_estimate` on both axes, the detected peak as
amplitude, `fit_success = False`.  The cutout side is `2 * (box_size / 2) + 1`. -/
def fit_psf_entry (box_size : ℕ) (fwhm_estimate : ℚ) (c : Candidate) : PSFEntry :=
  match fit_gaussian_2d (2 * (box_size / 2) + 1) c.fitRaw with
  | some (fx, fy, amp) => ⟨c.x, c.y, fx, fy, amp, some true⟩
  | none => ⟨c.x, c.y, fwhm_estimate, fwhm_estimate, c.peak, some false⟩

/-- `StarDetector.fit_psf` (star_detector.py lines 136-187): the loop with
`half_box = box_size // 2` that skips (`continue`) out-of-bounds candidates
and emits one entry per remaining candidate, in input order. -/
def fit_psf (H W box_size : ℕ) (fwhm_estimate : ℚ) : List Candidate → List PSFEntry
  | [] => []
  | c :: rest =>
    if out_of_bounds H W (box_size / 2) c then fit_psf H W box_size fwhm_estimate rest
    else fit_psf_entry box_size fwhm_estimate c :: fit_psf H W box_size fwhm_estimate rest

/-! ### Claim C8 -/

/-- **C8.** For every image shape, candidate list and odd `box_size` (the
`StarDetector` constructor forces the box size odd, line 31): `fit_psf`
skips exactly the candidates whose fitting window would exceed the image
bounds and emits one entry per remaining candidate in input order (the
filter-map identity); every candidate whose solver output is missing or
whose converted FWHMs fail the sanity screen (`< 0.5` px or `> box_size` px)
is emitted — not dropped — with `fwhm_x = fwhm_y = fwhm_estimate`, the
detected peak as amplitude and `fit_success = false`; and every candidate
passing the screen is emitted with the fitted values and
`fit_success = true`. -/
theorem C8_fit_psf_bounds_order_fallback (H W box_size : ℕ) (fwhm_estimate : ℚ)
    (stars : List Candidate) (hodd : box_size % 2 = 1) :
    fit_psf H W box_size fwhm_estimate stars
      = (stars.filter (fun c => !out_of_bounds H W (box_size / 2) c)).map
          (fit_psf_entry box_size fwhm_estimate)
    ∧ (∀ c : Candidate,
        (c.fitRaw = none
          ∨ ∃ amp sx sy, c.fitRaw = some (amp, sx, sy)
              ∧ (2.355 * sx < 0.5 ∨ 2.355 * sy < 0.5
                 ∨ (box_size : ℚ) < 2.355 * sx ∨ (box_size : ℚ) < 2.355 * sy)) →
        fit_psf_entry box_size fwhm_estimate c
          = ⟨c.x, c.y, fwhm_estimate, fwhm_estimate, c.peak, some false⟩)
    ∧ (∀ c : Candidate, ∀ amp sx sy, c.fitRaw = some (amp, sx, sy) →
        ¬(2.355 * sx < 0.5 ∨ 2.355 * sy < 0.5
           ∨ (box_size : ℚ) < 2.355 * sx ∨ (box_size : ℚ) < 2.355 * sy) →
        fit_psf_entry box_size fwhm_estimate c
          = ⟨c.x, c.y, 2.355 * sx, 2.355 * sy, amp, some true⟩) := by
  have hsize : 2 * (box_size / 2) + 1 = box_size := by omega
  have hcast : ((2 * (box_size / 2) + 1 : ℕ) : ℚ) = (box_size : ℚ) := by
    exact_mod_cast congrArg (fun n : ℕ => (n : ℚ)) hsize
  refine ⟨?_, ?_, ?_⟩
  · induction stars with
    | nil => rfl
    | cons c rest ih =>
      by_cases h : out_of_bounds H W (box_size / 2) c
      · simp [fit_psf, h, ih, List.filter_cons]
      · simp [fit_psf, h, ih, List.filter_cons]
  · intro c hc
    unfold fit_psf_entry fit_gaussian_2d
    rcases hc with hnone | ⟨amp, sx, sy, hraw, hbad⟩
    · rw [hnone]
    · rw [hraw]
      rw [hcast] at *
      simp only [hcast]
      rw [if_pos hbad]
  · intro c amp sx sy hraw hgood
    unfold fit_psf_entry fit_gaussian_2d
    rw [hraw]
    simp only [hcast]
    rw [if_neg hgood]

/-- Witness for C8 at a concrete odd box size and a two-candidate list: one
candidate in bounds with a failing solver, one out of bounds. -/
theorem C8_fit_psf_bounds_order_fallback_witness :
    (15 % 2 = 1) ∧
    (fit_psf 100 100 15 5
        [Candidate.mk 50 50 10 7 none, Candidate.mk 0 0 10 7 none]
      = (([Candidate.mk 50 50 10 7 none, Candidate.mk 0 0 10 7 none].filter
          (fun c => !out_of_bounds 100 100 (15 / 2) c)).map (fit_psf_entry 15 5))
    ∧ (∀ c : Candidate,
        (c.fitRaw = none
          ∨ ∃ amp sx sy, c.fitRaw = some (amp, sx, sy)
              ∧ (2.355 * sx < 0.5 ∨ 2.355 * sy < 0.5
                 ∨ ((15 : ℕ) : ℚ) < 2.355 * sx ∨ ((15 : ℕ) : ℚ) < 2.355 * sy)) →
        fit_psf_entry 15 5 c = ⟨c.x, c.y, 5, 5, c.peak, some false⟩)
    ∧ (∀ c : Candidate, ∀ amp sx sy, c.fitRaw = some (amp, sx, sy) →
        ¬(2.355 * sx < 0.5 ∨ 2.355 * sy < 0.5
           ∨ ((15 : ℕ) : ℚ) < 2.355 * sx ∨ ((15 : ℕ) : ℚ) < 2.355 * sy) →
        fit_psf_entry 15 5 c = ⟨c.x, c.y, 2.355 * sx, 2.355 * sy, amp, some true⟩)) :=
  ⟨by decide,
    C8_fit_psf_bounds_order_fallback 100 100 15 5
      [Candidate.mk 50 50 10 7 none, Candidate.mk 0 0 10 7 none] (by decide)⟩

/-! ## FITS metadata (`src/src/analysis/fits_reader.py`) -/

/-- A FITS header cell as `get_imaging_params` probes it: `truthy` is the
Python truthiness of `header[key]` (`False` for `0`, `0.0`, the empty string,
`None` and `False`), and `parse` the outcome of `float(header[key])` —
`none` when that raises `ValueError`/`TypeError`.  A numeric cell holding
`0.0` is `⟨false, some 0⟩`: falsy yet parseable. -/
structure HVal where
  truthy : Bool
  parse : Option ℚ
deriving DecidableEq, Repr

/-- A FITS header as `get_header` returns it: key/value pairs
(`dict(hdu.header)`; keys unique, first binding wins on lookup). -/
abbrev Header := List (String × HVal)

/-- The lookup loop shared by the three fields of `get_imaging_params`
(fits_reader.py lines 139-169): for each key in order, if the key is present
and its value truthy, try `float(...)`; on success take the value and stop,
on parse failure continue with the next key; a missing or falsy value is
likewise skipped. -/
def firstParam (header : Header) : List String → Option ℚ
  | [] => none
  | k :: ks =>
    match header.find? (fun p => p.1 == k) with
    | some p =>
      if p.2.truthy then
        match p.2.parse with
        | some q => some q
        | none => firstParam header ks
      else firstParam header ks
    | none => firstParam header ks

/-- fits_reader.py line 139. -/
def pixel_size_keys : List String :=
  ["XPIXSZ", "PIXSIZE", "PIXSIZE1", "XPIXELSZ", "PIXSCALE"]

/-- fits_reader.py line 150. -/
def focal_length_keys : List String := ["FOCALLEN", "FOCAL", "FOCALLENGTH", "FL"]

/-- fits_reader.py line 161. -/
def aperture_keys : List String := ["APTDIA", "DIAMETER", "APERTURE", "APTDIAMM"]

/-- The record returned by `FITSReader.get_imaging_params`. -/
structure ImagingParams where
  pixel_size_um : Option ℚ
  focal_length_mm : Option ℚ
  aperture_mm : Option ℚ
  image_scale : Option ℚ
deriving DecidableEq, Repr

/-- `FITSReader.get_imaging_params` (fits_reader.py lines 124-182) as a pure
function of the extracted header: the three lookups, and
`image_scale = (pixel_size / focal_length) * 206.265` guarded by
`if pixel_size and focal_length and focal_length > 0` — Python truthiness of
both operands (so a zero pixel size yields `None`) plus the positivity test. -/
def get_imaging_params_of_header (h : Header) : ImagingParams :=
  let pixel_size := firstParam h pixel_size_keys
  let focal_length := firstParam h focal_length_keys
  let aperture := firstParam h aperture_keys
  let image_scale :=
    match pixel_size, focal_length with
    | some p, some f =>
      if p ≠ 0 ∧ f ≠ 0 ∧ 0 < f then some (p / f * 206.265) else none
    | _, _ => none
  ⟨pixel_size, focal_length, aperture, image_scale⟩

/-- The field selection as claim C4 words it: the first present and
parseable-as-float value of the ordered key list — no truthiness screen. -/
def firstParamSpecC4 (header : Header) : List String → Option ℚ
  | [] => none
  | k :: ks =>
    match header.find? (fun p => p.1 == k) with
    | some p =>
      match p.2.parse with
      | some q => some q
      | none => firstParamSpecC4 header ks
    | none => firstParamSpecC4 header ks

/-- `get_imaging_params` as claim C4 words it: fields are the first present
and parseable values, and `image_scale = (pixel / focal) * 206.265` exactly
when both are present and `focal > 0`. -/
def imaging_params_spec_C4 (h : Header) : ImagingParams :=
  let pixel_size := firstParamSpecC4 h pixel_size_keys
  let focal_length := firstParamSpecC4 h focal_length_keys
  let aperture := firstParamSpecC4 h aperture_keys
  let image_scale :=
    match pixel_size, focal_length with
    | some p, some f => if 0 < f then some (p / f * 206.265) else none
    | _, _ => none
  ⟨pixel_size, focal_length, aperture, image_scale⟩

/-! ### Claim C4 -/

/-- The header of the C4 counterexample: the `XPIXSZ` cell holds the numeric
value `0.0` — present and parseable as a float, but falsy — and
`FOCALLEN = 1000`. -/
def cexHeaderC4 : Header :=
  [("XPIXSZ", HVal.mk false (some 0)), ("FOCALLEN", HVal.mk true (some 1000))]

/-- Counterexample to C4 as stated: on `cexHeaderC4`, pixel size is present
and parseable (`0.0`) and focal length is `1000 > 0`, so the claim derives
`image_scale = (0 / 1000) * 206.265 = 0`, a non-null value (and
`pixel_size_um = some 0`); the code instead skips the falsy cell, leaves
`pixel_size = None` and returns `image_scale = None`. -/
theorem C4_counterexample :
    (get_imaging_params_of_header cexHeaderC4).image_scale = none
    ∧ (get_imaging_params_of_header cexHeaderC4).pixel_size_um = none
    ∧ (imaging_params_spec_C4 cexHeaderC4).pixel_size_um = some 0
    ∧ (imaging_params_spec_C4 cexHeaderC4).image_scale = some (0 / 1000 * 206.265)
    ∧ ((0 : ℚ) / 1000 * 206.265) = 0 := by
  refine ⟨rfl, rfl, rfl, rfl, by norm_num⟩

theorem firstParam_eq_some (header : Header) :
    ∀ ks : List String, ∀ q : ℚ, firstParam header ks = some q →
      ∃ k ∈ ks, ∃ p, header.find? (fun p => p.1 == k) = some p
        ∧ p.2.truthy = true ∧ p.2.parse = some q := by
  intro ks
  induction ks with
  | nil => intro q hq; exact absurd hq (by simp [firstParam])
  | cons k ks ih =>
    intro q hq
    unfold firstParam at hq
    split at hq
    · rename_i p hfind
      split at hq
      · rename_i htr
        split at hq
        · rename_i q' hpar
          cases hq
          exact ⟨k, List.mem_cons_self _ _, p, hfind, htr, hpar⟩
        · rcases ih q hq with ⟨k', hk', hp'⟩
          exact ⟨k', List.mem_cons_of_mem _ hk', hp'⟩
      · rcases ih q hq with ⟨k', hk', hp'⟩
        exact ⟨k', List.mem_cons_of_mem _ hk', hp'⟩
    · rcases ih q hq with ⟨k', hk', hp'⟩
      exact ⟨k', List.mem_cons_of_mem _ hk', hp'⟩

/-- **C4 (amended).** `get_imaging_params` never throws (the embedded
function is total) and its fields are independently nullable; field
selection takes the first present, **truthy** (non-zero, non-empty) and
parseable-as-float value of the ordered key list; `image_scale` is
`some ((p / f) * 206.265)` exactly when the selected pixel size `p` and
focal length `f` exist with `p ≠ 0` and `f > 0`, and `none` otherwise —
in particular, a header none of whose cells parses as a float yields the
all-null record. -/
theorem C4_amended_image_scale (h : Header) :
    (get_imaging_params_of_header h).pixel_size_um = firstParam h pixel_size_keys
    ∧ (get_imaging_params_of_header h).focal_length_mm = firstParam h focal_length_keys
    ∧ (get_imaging_params_of_header h).aperture_mm = firstParam h aperture_keys
    ∧ (∀ p f : ℚ, firstParam h pixel_size_keys = some p →
        firstParam h focal_length_keys = some f → p ≠ 0 → 0 < f →
        (get_imaging_params_of_header h).image_scale = some (p / f * 206.265))
    ∧ (∀ s : ℚ, (get_imaging_params_of_header h).image_scale = some s →
        ∃ p f : ℚ, firstParam h pixel_size_keys = some p
          ∧ firstParam h focal_length_keys = some f
          ∧ p ≠ 0 ∧ 0 < f ∧ s = p / f * 206.265)
    ∧ ((∀ c ∈ h, c.2.parse = none) →
        get_imaging_params_of_header h = ⟨none, none, none, none⟩) := by
  refine ⟨rfl, rfl, rfl, ?_, ?_, ?_⟩
  · intro p f hp hf hp0 hf0
    unfold get_imaging_params_of_header
    simp only [hp, hf]
    rw [if_pos ⟨hp0, ne_of_gt hf0, hf0⟩]
  · intro s hs
    unfold get_imaging_params_of_header at hs
    simp only at hs
    cases hp : firstParam h pixel_size_keys with
    | none => rw [hp] at hs; exact absurd hs (by simp)
    | some p =>
      cases hf : firstParam h focal_length_keys with
      | none => rw [hp, hf] at hs; exact absurd hs (by simp)
      | some f =>
        rw [hp, hf] at hs
        have hs' : (if p ≠ 0 ∧ f ≠ 0 ∧ 0 < f then some (p / f * 206.265) else none)
            = some s := hs
        by_cases hcond : p ≠ 0 ∧ f ≠ 0 ∧ 0 < f
        · rw [if_pos hcond] at hs'
          exact ⟨p, f, rfl, rfl, hcond.1, hcond.2.2,
            (Option.some_injective _ hs').symm⟩
        · rw [if_neg hcond] at hs'
          exact absurd hs' (by simp)
  · intro hnone
    have hkey : ∀ ks : List String, firstParam h ks = none := by
      intro ks
      cases hq : firstParam h ks with
      | none => rfl
      | some q =>
        rcases firstParam_eq_some h ks q hq with ⟨k, _, p, hfind, _, hparse⟩
        have hmem : p ∈ h := List.mem_of_find?_eq_some hfind
        rw [hnone p hmem] at hparse
        exact absurd hparse (by simp)
    unfold get_imaging_params_of_header
    simp only [hkey]

/-! ## Orchestration (`src/src/analysis/analyzer.py`)

The per-file pipeline steps that depend only on pixel data (image loading,
star detection, PSF fitting, and every metric except `fwhm_arcsec`) are
carried as `Except`-valued inputs on each file; the orchestration logic —
exception capture, image-scale derivation and reuse, sequential/parallel
dispatch, result collection and ordering — is embedded directly. -/

/-- The scale-independent outcomes of the per-file pipeline: the values of
`MetricsCalculator.calculate_all` except `fwhm_arcsec` (which alone depends
on `image_scale`, metrics.py line 37), plus `len(stars)` and
`len(psf_results)` (analyzer.py lines 51-52). -/
structure PipelineData where
  fwhm : ℚ
  eccentricity : ℚ
  snr : ℚ
  star_count : ℕ
  background : ℚ
  star_count_detected : ℕ
  star_count_fitted : ℕ
deriving DecidableEq, Repr

/-- The metrics dict of `MetricsCalculator.calculate_all` (metrics.py lines
36-46). -/
structure Metrics where
  fwhm : ℚ
  fwhm_arcsec : Option ℚ
  eccentricity : ℚ
  snr : ℚ
  star_count : ℕ
  background : ℚ
deriving DecidableEq, Repr

/-- metrics.py line 37: `fwhm_arcsec = fwhm_pixels * image_scale if
image_scale else None` — Python truthiness, so both `None` and `0` give
`None`. -/
def mkMetrics (p : PipelineData) (image_scale : Option ℚ) : Metrics :=
  { fwhm := p.fwhm,
    fwhm_arcsec :=
      match image_scale with
      | some s => if s ≠ 0 then some (p.fwhm * s) else none
      | none => none,
    eccentricity := p.eccentricity, snr := p.snr,
    star_count := p.star_count, background := p.background }

deriving instance DecidableEq for Except

/-- One input file of a batch: the `path`/`filename` pair of the file dicts
consumed by `analyze_files`, plus the outcome of each external step on that
file — `headerOutcome` for `get_header` (fits_reader.py lines 77-93, an
`Except` because `fits.open` may raise), `loadOutcome` for `load_file`
(lines 15-45), and `pipelineOutcome` for the detection/fitting/metrics chain
on the loaded image (analyzer.py lines 143-150). -/
structure FitsFile where
  path : String
  filename : String
  headerOutcome : Except String Header
  loadOutcome : Except String Unit
  pipelineOutcome : Except String PipelineData
deriving DecidableEq, Repr

/-- `FITSReader.get_imaging_params` at the file level (fits_reader.py lines
124-182): header extraction may raise; the remainder is the pure
`get_imaging_params_of_header`. -/
def get_imaging_params (f : FitsFile) : Except String ImagingParams :=
  match f.headerOutcome with
  | .ok h => .ok (get_imaging_params_of_header h)
  | .error e => .error e

/-- A per-file result dict of the orchestrator.  Success dicts (analyzer.py
lines 47-53 and 152-158) carry `metrics` and the two counts and no `error`
key; error dicts (lines 55-60 and 269-274) carry `metrics = None` and the
error string and no counts.  Absent keys are `none`. -/
structure FileResult where
  filepath : String
  filename : String
  metrics : Option Metrics
  star_count_detected : Option ℕ
  star_count_fitted : Option ℕ
  error : Option String
deriving DecidableEq, Repr

/-- The error dict (analyzer.py lines 55-60 and 269-274).  (`load_folder`
sets `filename = Path(path).name`, so the `filename` of the file dict and
`Path(filepath).name` of the success dict coincide; the model carries the
one field.) -/
def errResult (f : FitsFile) (e : String) : FileResult :=
  ⟨f.path, f.filename, none, none, none, some e⟩

/-- `SubframeAnalyzer.analyze_file` (analyzer.py lines 110-158): load the
image; if `image_scale` is `None`, re-derive it from this file's own header
(`get_imaging_params`, which may itself raise); then detect, fit and compute
metrics.  Any exception is the `Except` error. -/
def analyze_file (f : FitsFile) (image_scale : Option ℚ) :
    Except String FileResult :=
  match f.loadOutcome with
  | .error e => .error e
  | .ok _ =>
    let scaleE : Except String (Option ℚ) :=
      match image_scale with
      | some s => .ok (some s)
      | none =>
        match get_imaging_params f with
        | .ok ip => .ok ip.image_scale
        | .error e => .error e
    match scaleE with
    | .error e => .error e
    | .ok scale =>
      match f.pipelineOutcome with
      | .error e => .error e
      | .ok p =>
        .ok ⟨f.path, f.filename, some (mkMetrics p scale),
          some p.star_count_detected, some p.star_count_fitted, none⟩

/-- The worker function `_analyze_single_file` (analyzer.py lines 14-60):
the same chain with the supplied `image_scale` used as-is (no re-derivation
from the header), and the `try`/`except` capturing any exception into the
error dict. -/
def analyze_single_file (f : FitsFile) (image_scale : Option ℚ) : FileResult :=
  match f.loadOutcome with
  | .error e => errResult f e
  | .ok _ =>
    match f.pipelineOutcome with
    | .error e => errResult f e
    | .ok p =>
      ⟨f.path, f.filename, some (mkMetrics p image_scale),
        some p.star_count_detected, some p.star_count_fitted, none⟩

/-- One loop step of `_analyze_sequential` (analyzer.py lines 260-274):
`analyze_file` under `try`, the error dict on exception. -/
def seqOne (image_scale : Option ℚ) (f : FitsFile) : FileResult :=
  match analyze_file f image_scale with
  | .ok r => r
  | .error e => errResult f e

/-- `SubframeAnalyzer._analyze_sequential` (analyzer.py lines 252-275): the
loop appends one result per file in input order. -/
def analyze_sequential (files : List FitsFile) (image_scale : Option ℚ) :
    List FileResult :=
  files.map (seqOne image_scale)

/-- `SubframeAnalyzer._analyze_parallel` (analyzer.py lines 277-305):
`pool.imap` yields one result per submitted argument tuple *in submission
order* (only the progress callback observes completion order), so the
collected list is the in-order map of the worker over the files. -/
def analyze_parallel (files : List FitsFile) (image_scale : Option ℚ) :
    List FileResult :=
  files.map (fun f => analyze_single_file f image_scale)

/-- `calculate_all_metric_stats` (statistics.py lines 162-197) over the
successfully-metriced frames: bands per fixed metric name, plus
`fwhm_arcsec` only when at least one frame has a non-null value (nulls
become NaN, i.e. `none`). -/
def calculate_all_metric_stats (ms : List Metrics) : List (String × BandStats) :=
  if ms = [] then []
  else
    let base := [
      ("fwhm", calculate_bands (ms.map (fun m => some m.fwhm))),
      ("eccentricity", calculate_bands (ms.map (fun m => some m.eccentricity))),
      ("snr", calculate_bands (ms.map (fun m => some m.snr))),
      ("star_count", calculate_bands (ms.map (fun m => some (m.star_count : ℚ)))),
      ("background", calculate_bands (ms.map (fun m => some m.background)))]
    if (ms.map (fun m => m.fwhm_arcsec)).any (fun v => v.isSome) then
      base ++ [("fwhm_arcsec", calculate_bands (ms.map (fun m => m.fwhm_arcsec)))]
    else base

/-- The batch result dict of `analyze_files` (analyzer.py lines 191-224). -/
structure BatchResult where
  total_files : ℕ
  results : List FileResult
  statistics : List (String × BandStats)
  workers_used : ℕ
  imaging_params : Option ImagingParams
deriving DecidableEq, Repr

/-- `SubframeAnalyzer.analyze_files` (analyzer.py lines 160-224): empty
batch short-circuit (lines 193-200); imaging parameters derived once from
the FIRST file, outside any per-file `try` (lines 202-204) — an exception
there propagates; parallel when `use_parallel and workers > 1 and total > 1`
(line 208), else sequential with `workers_used = 1`; statistics over the
frames whose metrics dict is truthy, i.e. non-`None` (line 215). -/
def analyze_files (num_workers : ℕ) (use_parallel : Bool)
    (files : List FitsFile) : Except String BatchResult :=
  match files with
  | [] => .ok ⟨0, [], [], 0, none⟩
  | f0 :: _ =>
    match get_imaging_params f0 with
    | .error e => .error e
    | .ok ip =>
      let image_scale := ip.image_scale
      if use_parallel = true ∧ 1 < num_workers ∧ 1 < files.length then
        let results := analyze_parallel files image_scale
        .ok ⟨files.length, results,
          calculate_all_metric_stats (results.filterMap (fun r => r.metrics)),
          num_workers, some ip⟩
      else
        let results := analyze_sequential files image_scale
        .ok ⟨files.length, results,
          calculate_all_metric_stats (results.filterMap (fun r => r.metrics)),
          1, some ip⟩

/-! ### Per-file containment lemmas -/

theorem analyze_single_file_spec (f : FitsFile) (scale : Option ℚ) :
    (analyze_single_file f scale).filepath = f.path
    ∧ (analyze_single_file f scale).filename = f.filename
    ∧ ((analyze_single_file f scale).error.isSome
        ↔ (analyze_single_file f scale).metrics = none)
    ∧ (∀ e, f.loadOutcome = .error e → analyze_single_file f scale = errResult f e) := by
  unfold analyze_single_file
  cases hl : f.loadOutcome with
  | error e =>
    refine ⟨rfl, rfl, by simp [errResult], fun e' he' => ?_⟩
    cases he'
    rfl
  | ok u =>
    cases hp : f.pipelineOutcome with
    | error e =>
      refine ⟨rfl, rfl, by simp [errResult], fun e' he' => ?_⟩
      exact Except.noConfusion he'
    | ok p =>
      refine ⟨rfl, rfl, by simp, fun e' he' => ?_⟩
      exact Except.noConfusion he'

theorem seqOne_spec (f : FitsFile) (scale : Option ℚ) :
    (seqOne scale f).filepath = f.path
    ∧ (seqOne scale f).filename = f.filename
    ∧ ((seqOne scale f).error.isSome ↔ (seqOne scale f).metrics = none)
    ∧ (∀ e, f.loadOutcome = .error e → seqOne scale f = errResult f e) := by
  unfold seqOne analyze_file
  cases hl : f.loadOutcome with
  | error e =>
    refine ⟨rfl, rfl, by simp [errResult], fun e' he' => ?_⟩
    cases he'
    rfl
  | ok u =>
    cases scale with
    | some s =>
      cases hp : f.pipelineOutcome with
      | error e =>
        refine ⟨rfl, rfl, by simp [errResult], fun e' he' => ?_⟩
        exact Except.noConfusion he'
      | ok p =>
        refine ⟨rfl, rfl, by simp, fun e' he' => ?_⟩
        exact Except.noConfusion he'
    | none =>
      unfold get_imaging_params
      cases hh : f.headerOutcome with
      | error e =>
        refine ⟨rfl, rfl, by simp [errResult], fun e' he' => ?_⟩
        exact Except.noConfusion he'
      | ok h =>
        cases hp : f.pipelineOutcome with
        | error e =>
          refine ⟨rfl, rfl, by simp [errResult], fun e' he' => ?_⟩
          exact Except.noConfusion he'
        | ok p =>
          refine ⟨rfl, rfl, by simp, fun e' he' => ?_⟩
          exact Except.noConfusion he'

/-- When the supplied image scale is non-null, one sequential loop step and
one parallel worker invocation produce the same `FileResult`: `analyze_file`
only consults the header when the scale is `None`. -/
theorem seqOne_eq_single (f : FitsFile) (s : ℚ) :
    seqOne (some s) f = analyze_single_file f (some s) := by
  unfold seqOne analyze_file analyze_single_file
  cases hl : f.loadOutcome with
  | error e => rfl
  | ok u =>
    cases hp : f.pipelineOutcome with
    | error e => rfl
    | ok p => rfl

theorem mapped_results_spec (g : FitsFile → FileResult)
    (hg : ∀ f : FitsFile, (g f).filepath = f.path ∧ (g f).filename = f.filename
      ∧ ((g f).error.isSome ↔ (g f).metrics = none)
      ∧ (∀ e, f.loadOutcome = .error e → g f = errResult f e))
    (files : List FitsFile) (i : ℕ) (hi : i < files.length) :
    ∃ f r, files[i]? = some f ∧ (files.map g)[i]? = some r
      ∧ r.filepath = f.path ∧ r.filename = f.filename
      ∧ (r.error.isSome ↔ r.metrics = none)
      ∧ (∀ e, f.loadOutcome = .error e → r = errResult f e) := by
  refine ⟨files.get ⟨i, hi⟩, g (files.get ⟨i, hi⟩), ?_, ?_, hg _⟩
  · simp [List.getElem?_eq_getElem hi]
  · rw [List.getElem?_map, List.getElem?_eq_getElem hi]
    rfl

/-! ### Claim C1 -/

/-- The two files of the C1 counterexample: the first file is unreadable
(`fits.open` raises on every access to it), the second file is healthy. -/
def cexBadFirst : FitsFile :=
  ⟨"a.fits", "a.fits", .error "FITS file not found: a.fits",
    .error "FITS file not found: a.fits", .error "FITS file not found: a.fits"⟩

/-- A healthy second file for the C1 counterexample. -/
def cexGoodSecond : FitsFile :=
  ⟨"b.fits", "b.fits", .ok [], .ok (), .ok ⟨4, 0, 10, 20, 100, 25, 22⟩⟩

/-- Counterexample to C1 as stated: a batch whose *first* file cannot be
read aborts entirely — `analyze_files` reads imaging parameters from the
first file's header (analyzer.py line 203) before, and outside, the
per-file exception capture, so the exception propagates to the batch caller
and the healthy second file is never analyzed.  This is a per-file failure,
not a structural (bad-directory) one. -/
theorem C1_counterexample :
    analyze_files 4 true [cexBadFirst, cexGoodSecond]
      = Except.error "FITS file not found: a.fits" := rfl

/-- **C1 (amended).** Whenever the first file's header is readable (the
imaging-parameter read at analyzer.py line 203 — the one per-file step
outside the capture — succeeds), the batch never aborts: `analyze_files`
returns a `BatchResult` with one result per input file in input order, each
result carries the file's path and name, the `error` field is present
exactly when `metrics` is null, and an exception while loading any file is
captured into exactly that file's result as the `error` string.  (As the
counterexample shows, a first file whose header read raises aborts the
whole batch, contrary to the original claim.) -/
theorem C1_amended_per_file_containment (nw : ℕ) (par : Bool)
    (f0 : FitsFile) (rest : List FitsFile)
    (hhdr : f0.headerOutcome.isOk = true) :
    ∃ b : BatchResult, analyze_files nw par (f0 :: rest) = .ok b
      ∧ b.total_files = (f0 :: rest).length
      ∧ b.results.length = (f0 :: rest).length
      ∧ ∀ i : ℕ, i < (f0 :: rest).length →
          ∃ f r, (f0 :: rest)[i]? = some f ∧ b.results[i]? = some r
            ∧ r.filepath = f.path ∧ r.filename = f.filename
            ∧ (r.error.isSome ↔ r.metrics = none)
            ∧ (∀ e, f.loadOutcome = .error e → r = errResult f e) := by
  obtain ⟨h, hh⟩ : ∃ h, f0.headerOutcome = .ok h := by
    cases hcase : f0.headerOutcome with
    | ok h => exact ⟨h, rfl⟩
    | error e =>
      rw [hcase] at hhdr
      exact absurd hhdr (by simp [Except.isOk, Except.toBool])
  have hip : get_imaging_params f0 = .ok (get_imaging_params_of_header h) := by
    unfold get_imaging_params
    rw [hh]
  simp only [analyze_files, hip]
  by_cases hbr : par = true ∧ 1 < nw ∧ 1 < (f0 :: rest).length
  · rw [if_pos hbr]
    refine ⟨_, rfl, rfl, List.length_map _ _, ?_⟩
    intro i hi
    exact mapped_results_spec _ (fun f => analyze_single_file_spec f _) _ i hi
  · rw [if_neg hbr]
    refine ⟨_, rfl, rfl, List.length_map _ _, ?_⟩
    intro i hi
    exact mapped_results_spec _ (fun f => seqOne_spec f _) _ i hi

/-- Witness for C1 (amended) at the concrete batch `[good, bad]`: the first
file is healthy, the second file fails to load, and the batch succeeds with
the failure contained. -/
theorem C1_amended_per_file_containment_witness :
    (cexGoodSecond.headerOutcome.isOk = true) ∧
    (∃ b : BatchResult, analyze_files 4 true [cexGoodSecond, cexBadFirst] = .ok b
      ∧ b.total_files = ([cexGoodSecond, cexBadFirst] : List FitsFile).length
      ∧ b.results.length = ([cexGoodSecond, cexBadFirst] : List FitsFile).length
      ∧ ∀ i : ℕ, i < ([cexGoodSecond, cexBadFirst] : List FitsFile).length →
          ∃ f r, ([cexGoodSecond, cexBadFirst] : List FitsFile)[i]? = some f
            ∧ b.results[i]? = some r
            ∧ r.filepath = f.path ∧ r.filename = f.filename
            ∧ (r.error.isSome ↔ r.metrics = none)
            ∧ (∀ e, f.loadOutcome = .error e → r = errResult f e)) :=
  ⟨rfl, C1_amended_per_file_containment 4 true cexGoodSecond [cexBadFirst] rfl⟩

/-! ### Claim C2 -/

/-- First file of the C2 counterexample: healthy, but its header carries no
scale keys, so the batch-level `image_scale` is `None`. -/
def cexFileNoScale : FitsFile :=
  ⟨"f1.fits", "f1.fits", .ok [], .ok (), .ok ⟨4, 0, 10, 20, 100, 25, 22⟩⟩

/-- Second file of the C2 counterexample: healthy, and its own header
determines an image scale (`XPIXSZ = 5`, `FOCALLEN = 1000`). -/
def cexFileWithScale : FitsFile :=
  ⟨"f2.fits", "f2.fits",
    .ok [("XPIXSZ", HVal.mk true (some 5)), ("FOCALLEN", HVal.mk true (some 1000))],
    .ok (), .ok ⟨4, 0, 10, 20, 100, 25, 22⟩⟩

theorem cex_get_imaging_params :
    get_imaging_params cexFileWithScale
      = .ok ⟨some 5, some 1000, none, some (5 / 1000 * 206.265)⟩ := rfl

theorem cex_seqOne_with_scale :
    seqOne none cexFileWithScale
      = ⟨"f2.fits", "f2.fits",
          some ⟨4, some (4 * (5 / 1000 * 206.265)), 0, 10, 20, 100⟩,
          some 25, some 22, none⟩ := by
  have hmk : mkMetrics ⟨4, 0, 10, 20, 100, 25, 22⟩ (some ((5 : ℚ) / 1000 * 206.265))
      = ⟨4, some (4 * (5 / 1000 * 206.265)), 0, 10, 20, 100⟩ := by
    simp only [mkMetrics]
    norm_num
  have hload : cexFileWithScale.loadOutcome = .ok () := rfl
  have hpipe : cexFileWithScale.pipelineOutcome = .ok ⟨4, 0, 10, 20, 100, 25, 22⟩ := rfl
  simp only [seqOne, analyze_file, hload, hpipe, cex_get_imaging_params, hmk]
  rfl

/-- Counterexample to C2 as stated: on a two-file batch whose first file
yields no image scale, sequential mode re-derives each file's scale from its
own header (`analyze_file` at analyzer.py lines 139-141) while parallel
workers use the batch-level `None` as-is (`_analyze_single_file` takes the
scale from the argument tuple and never re-reads the header), so the second
file's `fwhm_arcsec` is a number sequentially but `None` in parallel: the
per-file result contents differ between the two modes.  The first two
conjuncts exhibit the differing `fwhm_arcsec` columns of the two modes, the
next two show the same through `analyze_files` itself (parallel versus
sequential dispatch), and the last evaluates the differing value. -/
theorem C2_counterexample :
    ((analyze_sequential [cexFileNoScale, cexFileWithScale] none).map
        (fun r => r.metrics.bind (fun m => m.fwhm_arcsec)))
      = [none, some (4 * (5 / 1000 * 206.265))]
    ∧ ((analyze_parallel [cexFileNoScale, cexFileWithScale] none).map
        (fun r => r.metrics.bind (fun m => m.fwhm_arcsec)))
      = [none, none]
    ∧ ((analyze_files 4 false [cexFileNoScale, cexFileWithScale]).map
        (fun b => b.results.map (fun r => r.metrics.bind (fun m => m.fwhm_arcsec))))
      = .ok [none, some (4 * (5 / 1000 * 206.265))]
    ∧ ((analyze_files 4 true [cexFileNoScale, cexFileWithScale]).map
        (fun b => b.results.map (fun r => r.metrics.bind (fun m => m.fwhm_arcsec))))
      = .ok [none, none]
    ∧ (4 * ((5 : ℚ) / 1000 * 206.265)) = 4.1253
    ∧ some (4 * ((5 : ℚ) / 1000 * 206.265)) ≠ (none : Option ℚ) := by
  have hseq : analyze_sequential [cexFileNoScale, cexFileWithScale] none
      = [seqOne none cexFileNoScale, seqOne none cexFileWithScale] := rfl
  have hpar : analyze_parallel [cexFileNoScale, cexFileWithScale] none
      = [analyze_single_file cexFileNoScale none,
          analyze_single_file cexFileWithScale none] := rfl
  have h1 : seqOne none cexFileNoScale
      = ⟨"f1.fits", "f1.fits", some ⟨4, none, 0, 10, 20, 100⟩,
          some 25, some 22, none⟩ := rfl
  have h2 : analyze_single_file cexFileNoScale none
      = ⟨"f1.fits", "f1.fits", some ⟨4, none, 0, 10, 20, 100⟩,
          some 25, some 22, none⟩ := rfl
  have h3 : analyze_single_file cexFileWithScale none
      = ⟨"f2.fits", "f2.fits", some ⟨4, none, 0, 10, 20, 100⟩,
          some 25, some 22, none⟩ := rfl
  have hfiles : get_imaging_params cexFileNoScale = .ok ⟨none, none, none, none⟩ := rfl
  have hbranchF : analyze_files 4 false [cexFileNoScale, cexFileWithScale]
      = .ok ⟨2, analyze_sequential [cexFileNoScale, cexFileWithScale] none,
          calculate_all_metric_stats
            ((analyze_sequential [cexFileNoScale, cexFileWithScale] none).filterMap
              (fun r => r.metrics)),
          1, some ⟨none, none, none, none⟩⟩ := by
    simp only [analyze_files, hfiles]
    rw [if_neg (by simp)]
    rfl
  have hbranchT : analyze_files 4 true [cexFileNoScale, cexFileWithScale]
      = .ok ⟨2, analyze_parallel [cexFileNoScale, cexFileWithScale] none,
          calculate_all_metric_stats
            ((analyze_parallel [cexFileNoScale, cexFileWithScale] none).filterMap
              (fun r => r.metrics)),
          4, some ⟨none, none, none, none⟩⟩ := by
    simp only [analyze_files, hfiles]
    rw [if_pos (by simp)]
    rfl
  refine ⟨?_, ?_, ?_, ?_, by norm_num, by simp⟩
  · rw [hseq, h1, cex_seqOne_with_scale]
    rfl
  · rw [hpar, h2, h3]
    rfl
  · rw [hbranchF]
    simp only [Except.map]
    rw [hseq, h1, cex_seqOne_with_scale]
    rfl
  · rw [hbranchT]
    simp only [Except.map]
    rw [hpar, h2, h3]
    rfl

/-- **C2 (amended).** In both execution modes the results list has exactly
one entry per input file and the `i`-th entry is the per-file function
applied to the `i`-th input file, and any successful `analyze_files` batch
satisfies `results.length = total_files = ` number of input files.  The
per-file contents of the two modes are identical whenever the batch-level
image scale is non-null (`analyze_file` then never consults the header); as
the counterexample shows, when the scale is null the sequential mode
re-derives a per-file scale and the modes can differ in `fwhm_arcsec`. -/
theorem C2_amended_ordering_determinism (files : List FitsFile)
    (image_scale : Option ℚ) (nw : ℕ) (par : Bool) :
    (analyze_sequential files image_scale).length = files.length
    ∧ (analyze_parallel files image_scale).length = files.length
    ∧ (∀ i : ℕ, (analyze_sequential files image_scale)[i]?
        = (files[i]?).map (seqOne image_scale))
    ∧ (∀ i : ℕ, (analyze_parallel files image_scale)[i]?
        = (files[i]?).map (fun f => analyze_single_file f image_scale))
    ∧ (∀ s : ℚ, analyze_sequential files (some s) = analyze_parallel files (some s))
    ∧ (∀ b : BatchResult, analyze_files nw par files = .ok b →
        b.results.length = b.total_files ∧ b.total_files = files.length) := by
  refine ⟨List.length_map _ _, List.length_map _ _,
    fun i => List.getElem?_map .., fun i => List.getElem?_map .., ?_, ?_⟩
  · intro s
    unfold analyze_sequential analyze_parallel
    exact List.map_congr_left (fun f _ => seqOne_eq_single f s)
  · intro b hb
    cases files with
    | nil =>
      simp only [analyze_files] at hb
      cases hb
      exact ⟨rfl, rfl⟩
    | cons f0 rest =>
      simp only [analyze_files] at hb
      split at hb
      · exact Except.noConfusion hb
      · split at hb
        · injection hb with hb
          subst hb
          exact ⟨List.length_map _ _, rfl⟩
        · injection hb with hb
          subst hb
          exact ⟨List.length_map _ _, rfl⟩

end SFS
